import Mathlib

/-!
Verification of the message-statistics graph cog (`python/cogs/graph.py`).

The cog issues HTTP GET requests against a statistics endpoint and merges
the JSON rows into per-user cumulative series (`create_graph_messages`)
or per-interval totals (the `server` command).  HTTP, the chat framework
and the plotting library are external collaborators: we model an HTTP
response as `Option (List StatRow)` (`none` = non-200 status, `some rows`
= a 200 response whose JSON array decoded to `rows`), and the sequence of
responses as functions from the request's position to its response.  Every
aggregation function also returns the number of HTTP requests it issued.
-/

namespace Felix

/-- One row of the JSON array returned by
`https://emkc.org/api/v1/stats/discord/messages`:
`{discord_id, user, messages}`. -/
structure StatRow where
  discord_id : Nat
  user : String
  messages : Int
deriving Repr, DecidableEq

/-- An HTTP response: `none` models a non-200 status, `some rows` a 200
response carrying the decoded JSON array. -/
abbrev Response := Option (List StatRow)

/-- `clamp` from graph.py lines 20-25. -/
def clamp (value low high : Int) : Int :=
  if value < low then low
  else
    if value > high then high
    else value

/-- Key list of a Python dict comprehension keyed by `discord_id`:
first-occurrence order, duplicates dropped. -/
def dictKeys (rows : List StatRow) : List Nat :=
  rows.foldl
    (fun acc r => if r.discord_id ∈ acc then acc else acc ++ [r.discord_id])
    []

/-- Value lookup of a Python dict comprehension keyed by `discord_id`:
the last row with the given id wins (`retrieved_users = {x['discord_id']: x
for x in api_data}`). -/
def dictLookup (rows : List StatRow) (uid : Nat) : Option StatRow :=
  (rows.filter (fun r => r.discord_id = uid)).getLast?

/-- `data[-1][1]` guarded by `if data:` (graph.py lines 88-91): the
cumulative count of the last point, `0` for an empty series. -/
def seriesLast (data : List (Nat × Int)) : Int :=
  match data.getLast? with
  | some p => p.2
  | none => 0

/-- The mutable state of `create_graph_messages`: the `user_names` dict,
the `num_messages` dict of window totals, and `graph_data` mapping each
user id to its series of `(day_index, cumulative_count)` points. -/
structure BuildState where
  userNames : List (Nat × String)
  numMessages : List (Nat × Int)
  graphData : List (Nat × List (Nat × Int))
deriving Repr, DecidableEq

/-- Python dict store `d[uid] = v`: replace the value at the first
occurrence of the key, append the binding if the key is absent. -/
def updateAssoc (uid : Nat) (v : String) : List (Nat × String) → List (Nat × String)
  | [] => [(uid, v)]
  | p :: rest => if p.1 = uid then (uid, v) :: rest else p :: updateAssoc uid v rest

/-- Python dict read `d[uid]` (first occurrence of the key). -/
def lookupName (uid : Nat) : List (Nat × String) → Option String
  | [] => none
  | p :: rest => if p.1 = uid then some p.2 else lookupName uid rest

/-- Body of the inner `for uid, data in graph_data.items()` loop
(graph.py lines 87-100): carry the count forward when `uid` is absent
from the day's response, otherwise add that day's `messages` and update
the display name; then append the day's point `(i+1, new_total)`. -/
def stepUser (rows : List StatRow) (i : Nat) (names : List (Nat × String))
    (uid : Nat) (data : List (Nat × Int)) :
    List (Nat × String) × List (Nat × Int) :=
  match dictLookup rows uid with
  | none => (names, data ++ [(i + 1, seriesLast data)])
  | some row =>
    (updateAssoc uid row.user names, data ++ [(i + 1, seriesLast data + row.messages)])

/-- The new cumulative count appended for day `i`: unchanged when the
user is absent from the day's rows, otherwise increased by that day's
`messages`. -/
def newVal (rows : List StatRow) (uid : Nat) (data : List (Nat × Int)) : Int :=
  match dictLookup rows uid with
  | none => seriesLast data
  | some row => seriesLast data + row.messages

/-- One `stepUser` application folded over the accumulated
`(user_names, graph_data)` pair. -/
def dayFold (rows : List StatRow) (i : Nat)
    (acc : List (Nat × String) × List (Nat × List (Nat × Int)))
    (p : Nat × List (Nat × Int)) :
    List (Nat × String) × List (Nat × List (Nat × Int)) :=
  ((stepUser rows i acc.1 p.1 p.2).1,
    acc.2 ++ [(p.1, (stepUser rows i acc.1 p.1 p.2).2)])

/-- One iteration of the day loop of `create_graph_messages` given the
day's decoded rows: fold `stepUser` over every known user in order,
threading the `user_names` dict through. -/
def stepDay (i : Nat) (rows : List StatRow) (st : BuildState) : BuildState :=
  { userNames := (st.graphData.foldl (dayFold rows i) (st.userNames, [])).1,
    numMessages := st.numMessages,
    graphData := (st.graphData.foldl (dayFold rows i) (st.userNames, [])).2 }

/-- Seeding from the initial window fetch (graph.py lines 63-69):
`user_names`, `num_messages` and `graph_data = {uid: [[0, 0]] ...}`. -/
def seed (rows : List StatRow) : BuildState :=
  { userNames :=
      (dictKeys rows).map
        (fun uid => (uid, ((dictLookup rows uid).map (fun r => r.user)).getD "")),
    numMessages :=
      (dictKeys rows).map
        (fun uid => (uid, ((dictLookup rows uid).map (fun r => r.messages)).getD 0)),
    graphData := (dictKeys rows).map (fun uid => (uid, [((0 : Nat), (0 : Int))])) }

/-- The day loop of `create_graph_messages` (graph.py lines 71-100) over
the given list of day indices.  `daily i` is the response to day `i`'s
sub-fetch.  Returns the final state (`none` on a non-200 response, which
aborts immediately) and the number of daily requests issued, counting
the failing request. -/
def buildDays (daily : Nat → Response) : BuildState → List Nat → Option BuildState × Nat
  | st, [] => (some st, 0)
  | st, i :: rest =>
    match daily i with
    | none => (none, 1)
    | some rows =>
      ((buildDays daily (stepDay i rows st) rest).1,
        (buildDays daily (stepDay i rows st) rest).2 + 1)

/-- `create_graph_messages(days, limit, users)` (graph.py lines 37-125),
with the HTTP layer abstracted: `init` is the response to the initial
full-window fetch, `daily i` the response to day `i`'s sub-fetch.
Returns the final state (`none` = the Python `return False`) together
with the total number of HTTP requests issued.  The `limit` and `users`
arguments only shape the query string of the requests, which the
response functions already abstract, so they do not appear here. -/
def create_graph_messages (days : Nat) (init : Response) (daily : Nat → Response) :
    Option BuildState × Nat :=
  match init with
  | none => (none, 1)
  | some rows =>
    if rows = [] then (none, 1)
    else
      match (buildDays daily (seed rows) (List.range days)).1 with
      | none => (none, 1 + (buildDays daily (seed rows) (List.range days)).2)
      | some st =>
        if st.graphData.all (fun p => p.2.isEmpty) then
          (none, 1 + (buildDays daily (seed rows) (List.range days)).2)
        else (some st, 1 + (buildDays daily (seed rows) (List.range days)).2)

/-- Sum of the `messages` fields of a window's rows
(`sum(data['messages'] for data in api_data)`, graph.py line 215). -/
def windowTotal (rows : List StatRow) : Int :=
  (rows.map (fun r => r.messages)).sum

/-- The fetch loop of the `server` command (graph.py lines 198-216) over
the given window indices, in fetch order (`w = 0` is the most recent
window).  `label w` is the `end.strftime('%b %d')` label of window `w`'s
end date.  A non-200 response or an empty array aborts with `none`.
Also counts the requests issued. -/
def serverGather (fetch : Nat → Response) (label : Nat → String) :
    List Nat → Option (List (String × Int)) × Nat
  | [] => (some [], 0)
  | w :: rest =>
    match fetch w with
    | none => (none, 1)
    | some rows =>
      if rows = [] then (none, 1)
      else
        ((serverGather fetch label rest).1.map
            (fun l => (label w, windowTotal rows) :: l),
          (serverGather fetch label rest).2 + 1)

/-- The aggregation of the `server` command (graph.py lines 197-217):
gather `(label, total)` pairs most-recent-first for `w` in
`range(numSamples)`, then `num_messages.reverse()` so the sequence reads
oldest-to-newest. -/
def buildIntervalTotals (numSamples : Nat) (fetch : Nat → Response) (label : Nat → String) :
    Option (List (String × Int)) × Nat :=
  ((serverGather fetch label (List.range numSamples)).1.map List.reverse,
    (serverGather fetch label (List.range numSamples)).2)

/-- The `server` command takes `num_samples` as a plain Python `int`
with no clamping; `range(num_samples)` is empty for every
`num_samples ≤ 0`, which `Int.toNat` captures. -/
def serverCommand (numSamples : Int) (fetch : Nat → Response) (label : Nat → String) :
    Option (List (String × Int)) × Nat :=
  buildIntervalTotals numSamples.toNat fetch label

/-- A reply sent back through the chat platform: an image attachment or
a plain text message. -/
inductive Reply where
  | image : Reply
  | text : String → Reply
deriving Repr, DecidableEq

/-- Replies sent by the `top` command (graph.py lines 154-159) as a
function of the aggregation outcome. -/
def topReply (result : Option BuildState × Nat) : List Reply :=
  match result.1 with
  | some _ => [Reply.image]
  | none => [Reply.text "Nothing found"]

/-- Replies sent by the `users` command (graph.py lines 177-182). -/
def usersReply (result : Option BuildState × Nat) : List Reply :=
  match result.1 with
  | some _ => [Reply.image]
  | none => [Reply.text "Nothing found"]

/-- Replies sent by the `server` command: the image on success
(graph.py lines 231-233); on failure the handler does `return False`
(lines 209, 212) and sends nothing. -/
def serverReplies (result : Option (List (String × Int)) × Nat) : List Reply :=
  match result.1 with
  | some _ => [Reply.image]
  | none => []

/-- The `(limit, days)` pair the `top` command passes to
`create_graph_messages` (graph.py lines 152-154): both arguments are
clamped before the aggregation is invoked. -/
def topInvocation (n days : Int) : Int × Int :=
  (clamp n 1 10, clamp days 1 30)

/-- Stub fetch for the interval-totals test: window 0 (most recent)
returns two rows summing to 10, windows 1 and 2 return single rows with
20 and 30 messages. -/
def c6Fetch : Nat → Response := fun w =>
  if w = 0 then some [⟨1, "a", 4⟩, ⟨2, "b", 6⟩]
  else some [⟨1, "a", 10 * ((w : Int) + 1)⟩]

/-- Distinct end-date labels for the stub windows. -/
def c6Label : Nat → String := fun w => String.append "end-" (toString w)

/-- Stub fetch that always fails with a non-200 status. -/
def c8FailFetch : Nat → Response := fun _ => none

/-- Concrete initial-window rows for witnesses: one user. -/
def c1Init : List StatRow := [⟨1, "ab", 5⟩]

/-- Daily responses for the C1/C9 witnesses: every day returns an empty
array, so the count carries forward. -/
def c1Daily : Nat → Response := fun _ => some []

/-- The state `create_graph_messages 1 (some c1Init) c1Daily` ends in. -/
def c1St : BuildState :=
  { userNames := [(1, "ab")], numMessages := [(1, 5)],
    graphData := [(1, [(0, 0), (1, 0)])] }

/-- Daily responses for the C2 witness: user 1 sends 3 messages a day. -/
def c2Daily : Nat → Response := fun _ => some [⟨1, "ab", 3⟩]

/-- Daily responses for the C5 witness: day 0 succeeds, day 1 fails. -/
def c5Daily : Nat → Response := fun j => if j = 0 then some [⟨1, "ab", 2⟩] else none

/-- The day-1 row of user 2 in the C3 witness. -/
def c3Row : StatRow := ⟨2, "bob", 3⟩

/-- The day's decoded rows in the C3 witness. -/
def c3Rows : List StatRow := [c3Row]

/-- A mid-build series for the C3 witness. -/
def c3Data : List (Nat × Int) := [(0, 0), (1, 4)]

/-- A mid-build state with two tracked users for the C3 witness. -/
def c3St : BuildState :=
  { userNames := [(1, "al"), (2, "bo")], numMessages := [(1, 4), (2, 4)],
    graphData := [(1, c3Data), (2, c3Data)] }

/-! ### Structural lemmas -/

theorem stepUser_snd (rows : List StatRow) (i : Nat) (names : List (Nat × String))
    (uid : Nat) (data : List (Nat × Int)) :
    (stepUser rows i names uid data).2 = data ++ [(i + 1, newVal rows uid data)] := by
  cases h : dictLookup rows uid <;> simp [stepUser, newVal, h]

theorem dayFold_foldl_graph (rows : List StatRow) (i : Nat) :
    ∀ (l : List (Nat × List (Nat × Int))) (names : List (Nat × String))
      (gd : List (Nat × List (Nat × Int))),
      (l.foldl (dayFold rows i) (names, gd)).2
        = gd ++ l.map (fun p => (p.1, p.2 ++ [(i + 1, newVal rows p.1 p.2)])) := by
  intro l
  induction l with
  | nil => intro names gd; simp
  | cons p rest ih =>
    intro names gd
    simp only [List.foldl_cons, List.map_cons]
    rw [show dayFold rows i (names, gd) p
        = ((stepUser rows i names p.1 p.2).1, gd ++ [(p.1, (stepUser rows i names p.1 p.2).2)])
      from rfl]
    rw [ih]
    simp [stepUser_snd]

theorem stepDay_graphData (i : Nat) (rows : List StatRow) (st : BuildState) :
    (stepDay i rows st).graphData
      = st.graphData.map (fun p => (p.1, p.2 ++ [(i + 1, newVal rows p.1 p.2)])) := by
  simp [stepDay, dayFold_foldl_graph]

theorem stepDay_mapFst (i : Nat) (rows : List StatRow) (st : BuildState) :
    (stepDay i rows st).graphData.map Prod.fst = st.graphData.map Prod.fst := by
  rw [stepDay_graphData, List.map_map]
  rfl

theorem seed_mapFst (rows : List StatRow) :
    (seed rows).graphData.map Prod.fst = dictKeys rows := by
  show ((dictKeys rows).map _).map _ = dictKeys rows
  rw [List.map_map]
  exact List.map_id _

/-- Generic preservation of a per-series invariant through the day loop. -/
theorem buildDays_inv (daily : Nat → Response) (P : List (Nat × Int) → Prop)
    (hP : ∀ i rows, daily i = some rows → ∀ uid data, P data →
      P (data ++ [(i + 1, newVal rows uid data)])) :
    ∀ (l : List Nat) (st st' : BuildState) (c : Nat),
      buildDays daily st l = (some st', c) →
      (∀ p ∈ st.graphData, P p.2) → ∀ p ∈ st'.graphData, P p.2 := by
  intro l
  induction l with
  | nil =>
    intro st st' c h hst
    simp only [buildDays, Prod.mk.injEq, Option.some.injEq] at h
    obtain ⟨rfl, rfl⟩ := h
    exact hst
  | cons i rest ih =>
    intro st st' c h hst
    cases hdi : daily i with
    | none => simp [buildDays, hdi] at h
    | some rows =>
      simp only [buildDays, hdi, Prod.mk.injEq] at h
      obtain ⟨h1, h2⟩ := h
      have heq : buildDays daily (stepDay i rows st) rest
          = (some st', (buildDays daily (stepDay i rows st) rest).2) := by
        rw [← h1]
      refine ih (stepDay i rows st) st' _ heq ?_
      rw [stepDay_graphData]
      intro p hp
      obtain ⟨q, hq, rfl⟩ := List.mem_map.mp hp
      exact hP i rows hdi q.1 q.2 (hst q hq)

/-- The day loop issues one request per day, never changes the key list
of `graph_data`, and grows every series by exactly one point per day. -/
theorem buildDays_count_len (daily : Nat → Response) :
    ∀ (l : List Nat) (st st' : BuildState) (c : Nat),
      buildDays daily st l = (some st', c) →
      c = l.length ∧
        st'.graphData.map Prod.fst = st.graphData.map Prod.fst ∧
        ∀ n, (∀ p ∈ st.graphData, p.2.length = n) →
          ∀ p ∈ st'.graphData, p.2.length = n + l.length := by
  intro l
  induction l with
  | nil =>
    intro st st' c h
    simp only [buildDays, Prod.mk.injEq, Option.some.injEq] at h
    obtain ⟨rfl, rfl⟩ := h
    exact ⟨rfl, rfl, fun n hn p hp => by simpa using hn p hp⟩
  | cons i rest ih =>
    intro st st' c h
    cases hdi : daily i with
    | none => simp [buildDays, hdi] at h
    | some rows =>
      simp only [buildDays, hdi, Prod.mk.injEq] at h
      obtain ⟨h1, h2⟩ := h
      have heq : buildDays daily (stepDay i rows st) rest
          = (some st', (buildDays daily (stepDay i rows st) rest).2) := by
        rw [← h1]
      obtain ⟨hc, hfst, hlen⟩ := ih (stepDay i rows st) st' _ heq
      refine ⟨by simp [← h2, hc], by rw [hfst, stepDay_mapFst], ?_⟩
      intro n hn p hp
      have hstep : ∀ q ∈ (stepDay i rows st).graphData, q.2.length = n + 1 := by
        rw [stepDay_graphData]
        intro q hq
        obtain ⟨q', hq', rfl⟩ := List.mem_map.mp hq
        simp [hn q' hq']
      have := hlen (n + 1) hstep p hp
      simp only [List.length_cons]
      omega

/-- If every day in `l1` gets a 200 response and day `i` does not, the
day loop over `l1 ++ i :: l2` fails after `l1.length + 1` requests. -/
theorem buildDays_fail (daily : Nat → Response) (i : Nat) (hfail : daily i = none) :
    ∀ (l1 l2 : List Nat) (st : BuildState),
      (∀ j ∈ l1, daily j ≠ none) →
      buildDays daily st (l1 ++ i :: l2) = (none, l1.length + 1) := by
  intro l1
  induction l1 with
  | nil => intro l2 st _; simp [buildDays, hfail]
  | cons j rest ih =>
    intro l2 st hok
    have hj : daily j ≠ none := hok j (by simp)
    cases hdj : daily j with
    | none => exact absurd hdj hj
    | some rows =>
      simp only [List.cons_append, buildDays, hdj, List.append_eq]
      rw [ih l2 (stepDay j rows st) (fun k hk => hok k (by simp [hk]))]
      simp

theorem range_decomp : ∀ (days i : Nat), i < days →
    ∃ t, List.range days = List.range i ++ i :: t := by
  intro days
  induction days with
  | zero => intro i h; exact absurd h (Nat.not_lt_zero i)
  | succ d ih =>
    intro i h
    rcases Nat.lt_succ_iff_lt_or_eq.mp h with h' | rfl
    · obtain ⟨t, ht⟩ := ih i h'
      exact ⟨t ++ [d], by rw [List.range_succ, ht]; simp⟩
    · exact ⟨[], by rw [List.range_succ]⟩

/-- Inversion of a successful `create_graph_messages` run. -/
theorem create_some_inv (days : Nat) (rows : List StatRow) (daily : Nat → Response)
    (st : BuildState)
    (hrun : (create_graph_messages days (some rows) daily).1 = some st) :
    rows ≠ [] ∧ (buildDays daily (seed rows) (List.range days)).1 = some st := by
  by_cases hne : rows = []
  · subst hne; simp [create_graph_messages] at hrun
  · refine ⟨hne, ?_⟩
    simp only [create_graph_messages, if_neg hne] at hrun
    cases hb : (buildDays daily (seed rows) (List.range days)).1 with
    | none => rw [hb] at hrun; simp at hrun
    | some st1 =>
      rw [hb] at hrun
      by_cases hall : st1.graphData.all (fun p => p.2.isEmpty)
      · simp only [hall, if_true] at hrun; simp at hrun
      · simp only [hall, if_false] at hrun
        simp at hrun
        rw [hrun]

theorem dictLookup_mem (rows : List StatRow) (uid : Nat) (row : StatRow)
    (h : dictLookup rows uid = some row) : row ∈ rows := by
  have hx : row ∈ (rows.filter (fun r => r.discord_id = uid)).getLast? := h
  obtain ⟨hne, heq⟩ := List.mem_getLast?_eq_getLast hx
  rw [heq]
  exact List.mem_of_mem_filter (List.getLast_mem hne)

theorem seriesLast_eq (data : List (Nat × Int)) (x : Nat × Int)
    (h : data.getLast? = some x) : seriesLast data = x.2 := by
  simp [seriesLast, h]

theorem lookupName_updateAssoc_self (uid : Nat) (v : String) :
    ∀ names, lookupName uid (updateAssoc uid v names) = some v := by
  intro names
  induction names with
  | nil => simp [updateAssoc, lookupName]
  | cons p rest ih =>
    by_cases h : p.1 = uid
    · simp [updateAssoc, h, lookupName]
    · simp [updateAssoc, h, lookupName, ih]

theorem lookupName_updateAssoc_ne (uid uid' : Nat) (v : String) (h : uid ≠ uid') :
    ∀ names, lookupName uid (updateAssoc uid' v names) = lookupName uid names := by
  intro names
  induction names with
  | nil => simp [updateAssoc, lookupName, Ne.symm h]
  | cons p rest ih =>
    by_cases hp : p.1 = uid'
    · have hpu : p.1 ≠ uid := by rw [hp]; exact Ne.symm h
      simp [updateAssoc, hp, lookupName, hpu, Ne.symm h]
    · by_cases hpu : p.1 = uid <;> simp [updateAssoc, hp, lookupName, hpu, ih, h]

/-- Once the `user_names` entry of `uid` holds `w`, folding the rest of
the users leaves it at `w` (re-updates write the same day's name). -/
theorem dayFold_names_preserve (rows : List StatRow) (i uid : Nat) (w : String)
    (hval : ∀ row, dictLookup rows uid = some row → row.user = w) :
    ∀ (l : List (Nat × List (Nat × Int))) (names : List (Nat × String))
      (gd : List (Nat × List (Nat × Int))),
      lookupName uid names = some w →
      lookupName uid (l.foldl (dayFold rows i) (names, gd)).1 = some w := by
  intro l
  induction l with
  | nil => intro names gd h; exact h
  | cons q rest ih =>
    intro names gd h
    simp only [List.foldl_cons]
    apply ih
    show lookupName uid (stepUser rows i names q.1 q.2).1 = some w
    cases hdl : dictLookup rows q.1 with
    | none => simpa [stepUser, hdl] using h
    | some row =>
      simp only [stepUser, hdl]
      by_cases hq : q.1 = uid
      · subst hq
        rw [lookupName_updateAssoc_self]
        rw [hval row hdl]
      · rw [lookupName_updateAssoc_ne uid q.1 row.user (fun he => hq he.symm)]
        exact h

/-- Folding the users establishes the day's display name for every user
present in the day's rows. -/
theorem dayFold_names_mem (rows : List StatRow) (i uid : Nat) (row : StatRow)
    (hrow : dictLookup rows uid = some row) :
    ∀ (l : List (Nat × List (Nat × Int))) (names : List (Nat × String))
      (gd : List (Nat × List (Nat × Int))),
      (∃ d, (uid, d) ∈ l) →
      lookupName uid (l.foldl (dayFold rows i) (names, gd)).1 = some row.user := by
  intro l
  induction l with
  | nil => rintro names gd ⟨d, hd⟩; simp at hd
  | cons q rest ih =>
    rintro names gd ⟨d, hd⟩
    simp only [List.foldl_cons]
    by_cases hq : q.1 = uid
    · apply dayFold_names_preserve rows i uid row.user
        (fun row' h' => by rw [hrow] at h'; cases Option.some.inj h'; rfl)
      show lookupName uid (stepUser rows i names q.1 q.2).1 = some row.user
      rw [show stepUser rows i names q.1 q.2 = stepUser rows i names uid q.2 from by rw [hq]]
      simp only [stepUser, hrow]
      exact lookupName_updateAssoc_self uid row.user names
    · have hd' : (uid, d) ∈ rest := by
        rcases List.mem_cons.mp hd with h | h
        · exact absurd (congrArg Prod.fst h.symm) hq
        · exact h
      exact ih _ _ ⟨d, hd'⟩

theorem stepDay_userNames_lookup (i : Nat) (rows : List StatRow) (st : BuildState)
    (uid : Nat) (row : StatRow) (d : List (Nat × Int))
    (hmem : (uid, d) ∈ st.graphData) (hrow : dictLookup rows uid = some row) :
    lookupName uid (stepDay i rows st).userNames = some row.user :=
  dayFold_names_mem rows i uid row hrow st.graphData st.userNames [] ⟨d, hmem⟩

theorem dictKeys_aux : ∀ (rows : List StatRow) (acc : List Nat), acc ≠ [] →
    rows.foldl
        (fun acc r => if r.discord_id ∈ acc then acc else acc ++ [r.discord_id]) acc
      ≠ [] := by
  intro rows
  induction rows with
  | nil => intro acc h; exact h
  | cons r rest ih =>
    intro acc h
    simp only [List.foldl_cons]
    by_cases hm : r.discord_id ∈ acc
    · rw [if_pos hm]; exact ih acc h
    · rw [if_neg hm]; exact ih _ (by simp)

theorem dictKeys_ne_nil (rows : List StatRow) (h : rows ≠ []) : dictKeys rows ≠ [] := by
  cases rows with
  | nil => exact absurd rfl h
  | cons r rest =>
    simp only [dictKeys, List.foldl_cons]
    rw [if_neg (List.not_mem_nil r.discord_id)]
    exact dictKeys_aux rest _ (by simp)

/-! ### Claims -/

/-- C1: for every `windowDays ≥ 1`, a successful `create_graph_messages`
run gives every user of the initial window fetch a series, and every
series has exactly `windowDays + 1` points, the first being the
synthetic starting point `(0, 0)`. -/
theorem C1_series_length (days : Nat) (rows : List StatRow) (daily : Nat → Response)
    (st : BuildState) (hdays : 1 ≤ days)
    (hrun : (create_graph_messages days (some rows) daily).1 = some st) :
    st.graphData.map Prod.fst = dictKeys rows ∧
      ∀ p ∈ st.graphData, p.2.length = days + 1 ∧ p.2.head? = some (0, 0) := by
  obtain ⟨hne, hfst⟩ := create_some_inv days rows daily st hrun
  have hb : buildDays daily (seed rows) (List.range days)
      = (some st, (buildDays daily (seed rows) (List.range days)).2) := by
    rw [← hfst]
  obtain ⟨-, hmapfst, hlen⟩ := buildDays_count_len daily (List.range days) (seed rows) st _ hb
  have hseedlen : ∀ q ∈ (seed rows).graphData, q.2.length = 1 := by
    intro q hq
    obtain ⟨uid, -, rfl⟩ := List.mem_map.mp hq
    rfl
  have hseedhead : ∀ q ∈ (seed rows).graphData, q.2.head? = some ((0 : Nat), (0 : Int)) := by
    intro q hq
    obtain ⟨uid, -, rfl⟩ := List.mem_map.mp hq
    rfl
  have hhead := buildDays_inv daily (fun data => data.head? = some (0, 0))
    (fun i drows _ uid data hd => by
      cases data with
      | nil => simp at hd
      | cons a t =>
        simp only [List.head?_cons, Option.some.injEq] at hd
        subst hd
        rfl)
    (List.range days) (seed rows) st _ hb hseedhead
  refine ⟨by rw [hmapfst, seed_mapFst], fun p hp => ⟨?_, hhead p hp⟩⟩
  have := hlen 1 hseedlen p hp
  rw [List.length_range] at this
  omega

/-- C1 witness: one user, a one-day window, an empty daily response. -/
theorem C1_series_length_witness :
    c1St.graphData.map Prod.fst = dictKeys c1Init ∧
      ∀ p ∈ c1St.graphData, p.2.length = 1 + 1 ∧ p.2.head? = some (0, 0) :=
  C1_series_length 1 c1Init c1Daily c1St (by decide) (by decide)

/-- C2: when every daily response carries only non-negative `messages`
values, the cumulative counts within every user's series are
non-decreasing. -/
theorem C2_series_monotone (days : Nat) (rows : List StatRow) (daily : Nat → Response)
    (st : BuildState)
    (hnn : ∀ i drows, daily i = some drows → ∀ r ∈ drows, 0 ≤ r.messages)
    (hrun : (create_graph_messages days (some rows) daily).1 = some st) :
    ∀ p ∈ st.graphData, List.Chain' (fun a b : Nat × Int => a.2 ≤ b.2) p.2 := by
  obtain ⟨hne, hfst⟩ := create_some_inv days rows daily st hrun
  have hb : buildDays daily (seed rows) (List.range days)
      = (some st, (buildDays daily (seed rows) (List.range days)).2) := by
    rw [← hfst]
  refine buildDays_inv daily (fun data => List.Chain' (fun a b : Nat × Int => a.2 ≤ b.2) data)
    ?_ (List.range days) (seed rows) st _ hb ?_
  · intro i drows hdi uid data hd
    refine List.chain'_append.mpr ⟨hd, List.chain'_singleton _, ?_⟩
    intro x hx y hy
    simp only [List.head?_cons, Option.mem_def, Option.some.injEq] at hy
    subst hy
    show x.2 ≤ newVal drows uid data
    have hlast : seriesLast data = x.2 := seriesLast_eq data x hx
    cases hdl : dictLookup drows uid with
    | none => simp [newVal, hdl, hlast]
    | some row =>
      have hm : 0 ≤ row.messages := hnn i drows hdi row (dictLookup_mem drows uid row hdl)
      simp only [newVal, hdl, hlast]
      omega
  · intro q hq
    obtain ⟨uid, -, rfl⟩ := List.mem_map.mp hq
    exact List.chain'_singleton _

/-- C2 witness: the series built from one user sending 3 messages on
the single day of the window is non-decreasing. -/
theorem C2_series_monotone_witness :
    List.Chain' (fun a b : Nat × Int => a.2 ≤ b.2) [(0, 0), (1, 3)] :=
  C2_series_monotone 1 c1Init c2Daily
    { userNames := [(1, "ab")], numMessages := [(1, 5)],
      graphData := [(1, [(0, 0), (1, 3)])] }
    (fun i drows h r hr => by
      cases Option.some.inj h
      simp only [List.mem_singleton] at hr
      subst hr
      decide)
    (by decide)
    (1, [(0, 0), (1, 3)]) (by decide)

/-- C3: in one day-loop iteration of `create_graph_messages`, a known
user absent from the day's rows gets the previous cumulative count
appended for day `i`; a present user gets the previous count plus that
day's `messages` appended, and the stored display name becomes that
day's name. -/
theorem C3_carry_forward (i : Nat) (rows : List StatRow) (st : BuildState)
    (uid : Nat) (data : List (Nat × Int))
    (hmem : (uid, data) ∈ st.graphData) :
    (dictLookup rows uid = none →
        (uid, data ++ [(i + 1, seriesLast data)]) ∈ (stepDay i rows st).graphData) ∧
      ∀ row, dictLookup rows uid = some row →
        (uid, data ++ [(i + 1, seriesLast data + row.messages)])
            ∈ (stepDay i rows st).graphData ∧
          lookupName uid (stepDay i rows st).userNames = some row.user := by
  constructor
  · intro habs
    rw [stepDay_graphData]
    refine List.mem_map.mpr ⟨(uid, data), hmem, ?_⟩
    simp [newVal, habs]
  · intro row hrow
    refine ⟨?_, stepDay_userNames_lookup i rows st uid row data hmem hrow⟩
    rw [stepDay_graphData]
    refine List.mem_map.mpr ⟨(uid, data), hmem, ?_⟩
    simp [newVal, hrow]

/-- C3 witness: user 2 is present in the day's rows with 3 messages, so
its series gets `4 + 3` appended and its display name becomes "bob". -/
theorem C3_carry_forward_witness :
    (2, c3Data ++ [(1 + 1, seriesLast c3Data + c3Row.messages)])
        ∈ (stepDay 1 c3Rows c3St).graphData ∧
      lookupName 2 (stepDay 1 c3Rows c3St).userNames = some c3Row.user :=
  (C3_carry_forward 1 c3Rows c3St 2 c3Data (by decide)).2 c3Row (by decide)

/-- C4: if the initial full-window fetch returns an empty array or a
non-200 status, `create_graph_messages` reports failure and issues no
further requests: the total request count is exactly one. -/
theorem C4_initial_failure_one_request (days : Nat) (daily : Nat → Response)
    (init : Response) (h : init = none ∨ init = some []) :
    create_graph_messages days init daily = (none, 1) := by
  rcases h with h | h <;> subst h <;> simp [create_graph_messages]

/-- Witness for C4 at `days = 5` with a non-200 initial response. -/
theorem C4_initial_failure_one_request_witness :
    create_graph_messages 5 none (fun _ => none) = (none, 1) :=
  C4_initial_failure_one_request 5 (fun _ => none) none (Or.inl rfl)

/-- C5: if the sub-fetch of day `i` returns a non-200 status and all
earlier days succeeded, `create_graph_messages` fails immediately and
the total request count is `1` (initial fetch) plus `i + 1` (the days
processed up to and including the failing one). -/
theorem C5_daily_failure_aborts (days i : Nat) (rows : List StatRow)
    (daily : Nat → Response) (hne : rows ≠ []) (hi : i < days)
    (hok : ∀ j < i, daily j ≠ none) (hfail : daily i = none) :
    create_graph_messages days (some rows) daily = (none, 1 + (i + 1)) := by
  obtain ⟨t, ht⟩ := range_decomp days i hi
  have hb : buildDays daily (seed rows) (List.range days) = (none, i + 1) := by
    rw [ht, buildDays_fail daily i hfail (List.range i) t (seed rows)
      (fun j hj => hok j (List.mem_range.mp hj))]
    rw [List.length_range]
  simp only [create_graph_messages, if_neg hne, hb]

/-- C5 witness: a two-day window whose day-1 sub-fetch fails after day 0
succeeded: three requests in total. -/
theorem C5_daily_failure_aborts_witness :
    create_graph_messages 2 (some c1Init) c5Daily = (none, 1 + (1 + 1)) :=
  C5_daily_failure_aborts 2 1 c1Init c5Daily (by decide) (by decide) (by decide) rfl

/-- C6: `buildIntervalTotals` fetches windows most-recent-first and
reverses the collected sequence: against a stub returning per-window
sums `[10, 20, 30]` in fetch order, the output is
`[(oldest_label, 30), (mid_label, 20), (newest_label, 10)]`, each label
the window's end-date label and each total the sum of that window's
`messages` values; three requests are issued. -/
theorem C6_interval_totals_reversed :
    buildIntervalTotals 3 c6Fetch c6Label =
      (some [(c6Label 2, 30), (c6Label 1, 20), (c6Label 0, 10)], 3) := by
  decide

/-- C7: the `top` command clamps its arguments before any request is
issued: the limit passed to the aggregation always lies in `[1, 10]`,
the day count in `[1, 30]`, and `top(n=15, days=0)` is normalized to
`n=10, days=1`. -/
theorem C7_top_clamps_arguments (n days : Int) :
    1 ≤ (topInvocation n days).1 ∧ (topInvocation n days).1 ≤ 10 ∧
      1 ≤ (topInvocation n days).2 ∧ (topInvocation n days).2 ≤ 30 ∧
      topInvocation 15 0 = (10, 1) := by
  refine ⟨?_, ?_, ?_, ?_, by decide⟩ <;>
    simp only [topInvocation, clamp] <;> split <;> omega

/-- C8 counterexample: when the `server` aggregation fails, the command
sends no reply at all, not one reply. -/
theorem C8_one_reply_counterexample :
    ¬ (serverReplies (buildIntervalTotals 1 c8FailFetch c6Label)).length = 1 := by
  decide

/-- C8 amended: `top` and `users` send exactly one reply per invocation,
an image on success and the text "Nothing found" on failure; `server`
sends exactly one image reply on success and no reply at all on
failure. -/
theorem C8_replies_amended (r : Option BuildState × Nat)
    (s : Option (List (String × Int)) × Nat) :
    (topReply r).length = 1 ∧ (usersReply r).length = 1 ∧
      (r.1 = none → topReply r = [Reply.text "Nothing found"] ∧
        usersReply r = [Reply.text "Nothing found"]) ∧
      (∀ st, r.1 = some st → topReply r = [Reply.image] ∧ usersReply r = [Reply.image]) ∧
      (s.1 = none → serverReplies s = []) ∧
      ∀ v, s.1 = some v → serverReplies s = [Reply.image] := by
  obtain ⟨r1, r2⟩ := r
  obtain ⟨s1, s2⟩ := s
  cases r1 <;> cases s1 <;> simp [topReply, usersReply, serverReplies]

/-- C8 amended witness: a failed `server` aggregation produces no
reply. -/
theorem C8_replies_amended_witness :
    serverReplies ((none : Option (List (String × Int))), 1) = [] :=
  (C8_replies_amended (none, 1) (none, 1)).2.2.2.2.1 rfl

/-- C9: the defensive "every series is empty" failure of
`create_graph_messages` is unreachable: whenever the initial fetch is
non-empty and the day loop completes, the all-empty test is false and
the function succeeds. -/
theorem C9_defensive_check_unreachable (days : Nat) (rows : List StatRow)
    (daily : Nat → Response) (st : BuildState) (c : Nat) (hne : rows ≠ [])
    (hloop : buildDays daily (seed rows) (List.range days) = (some st, c)) :
    st.graphData.all (fun p => p.2.isEmpty) = false ∧
      (create_graph_messages days (some rows) daily).1 = some st := by
  have hinv := buildDays_inv daily (fun data => data ≠ [])
    (fun i drows _ uid data _ => by simp)
    (List.range days) (seed rows) st c hloop
    (fun q hq => by
      obtain ⟨uid, -, rfl⟩ := List.mem_map.mp hq
      simp)
  obtain ⟨-, hmapfst, -⟩ := buildDays_count_len daily (List.range days) (seed rows) st c hloop
  have hkeys : st.graphData.map Prod.fst = dictKeys rows := by
    rw [hmapfst, seed_mapFst]
  have hgne : st.graphData ≠ [] := by
    intro h0
    apply dictKeys_ne_nil rows hne
    rw [← hkeys, h0]
    rfl
  obtain ⟨p0, hp0⟩ := List.exists_mem_of_ne_nil st.graphData hgne
  have hfalse : st.graphData.all (fun p => p.2.isEmpty) = false := by
    cases hv : st.graphData.all (fun p => p.2.isEmpty) with
    | false => rfl
    | true =>
      have h1 := List.all_eq_true.mp hv p0 hp0
      have h2 : p0.2 = [] := by simpa using h1
      exact absurd h2 (hinv p0 hp0)
  refine ⟨hfalse, ?_⟩
  simp only [create_graph_messages, if_neg hne, hloop, hfalse]
  rfl

/-- C9 witness: a one-user, one-day run in which the loop completes:
the all-empty test is false and the run succeeds. -/
theorem C9_defensive_check_unreachable_witness :
    c1St.graphData.all (fun p => p.2.isEmpty) = false ∧
      (create_graph_messages 1 (some c1Init) c1Daily).1 = some c1St :=
  C9_defensive_check_unreachable 1 c1Init c1Daily c1St 1 (by decide) (by decide)

/-- C10: for every `num_samples ≤ 0` the `server` command issues zero
HTTP requests, succeeds with an empty series, and sends an image reply
rather than failing or replying with text. -/
theorem C10_server_nonpositive_samples (n : Int) (fetch : Nat → Response)
    (label : Nat → String) (h : n ≤ 0) :
    serverCommand n fetch label = (some [], 0) ∧
      serverReplies (serverCommand n fetch label) = [Reply.image] := by
  have h0 : n.toNat = 0 := Int.toNat_of_nonpos h
  constructor
  · simp [serverCommand, buildIntervalTotals, h0, serverGather]
  · simp [serverCommand, buildIntervalTotals, h0, serverGather, serverReplies]

/-- C10 witness: `server` with `num_samples = -3` and an always-failing
fetch still issues zero requests and sends an image. -/
theorem C10_server_nonpositive_samples_witness :
    serverCommand (-3) c8FailFetch c6Label = (some [], 0) ∧
      serverReplies (serverCommand (-3) c8FailFetch c6Label) = [Reply.image] :=
  C10_server_nonpositive_samples (-3) c8FailFetch c6Label (by decide)

end Felix
